import Mathlib

set_option maxRecDepth 8192

/-!
# Verification of the hippodb-client typed request layer

Shallow embedding of `hippodb_client/__init__.py`: the double path-segment
percent-encoding scheme, the two-tier session model (`Hippo` /
`AuthenticatedHippo`) and the mapping of each operation to an HTTP request.

Python strings are modelled as lists of Unicode code points (`PyStr`), byte
strings as lists of naturals below 256.  Stateful transport (aiohttp
`ClientSession`) is modelled by explicit state passing over a `World` holding
the open sessions, the trace of issued requests, and a response oracle.
-/

/-- A Python `str`, as its list of Unicode code points. -/
abbrev PyStr := List Nat

/-- Code points of a Lean string literal, for writing concrete `PyStr`s. -/
def strLit (s : String) : PyStr := s.toList.map Char.toNat

/-- A valid Unicode scalar value (what a code point of a real string can be). -/
def ValidCp (c : Nat) : Prop := c < 55296 ∨ (57344 ≤ c ∧ c < 1114112)

instance (c : Nat) : Decidable (ValidCp c) := by
  unfold ValidCp; infer_instance

/-! ## UTF-8 (Python `str.encode("utf-8")` / `bytes.decode("utf-8")`) -/

/-- UTF-8 encoding of one code point (as in CPython's encoder). -/
def utf8EncodeChar (c : Nat) : List Nat :=
  if c < 128 then [c]
  else if c < 2048 then [192 + c / 64, 128 + c % 64]
  else if c < 65536 then [224 + c / 4096, 128 + (c / 64) % 64, 128 + c % 64]
  else [240 + c / 262144, 128 + (c / 4096) % 64, 128 + (c / 64) % 64, 128 + c % 64]

/-- UTF-8 encoding of a string. -/
def utf8Encode (s : PyStr) : List Nat := s.flatMap utf8EncodeChar

/-- One UTF-8 decoding step: the code point introduced by leading byte `b`
(consuming continuation bytes from `rest`) and the remaining bytes. Lenient on
malformed input, which decodes to U+FFFD; only well-formed encoder output
matters to the claims. -/
def utf8DecodeStep (b : Nat) (rest : List Nat) : Nat × List Nat :=
  if b < 128 then (b, rest)
  else if b < 224 then
    match rest with
    | b2 :: r => ((b - 192) * 64 + (b2 - 128), r)
    | [] => (65533, [])
  else if b < 240 then
    match rest with
    | b2 :: b3 :: r => ((b - 224) * 4096 + (b2 - 128) * 64 + (b3 - 128), r)
    | _ => (65533, [])
  else
    match rest with
    | b2 :: b3 :: b4 :: r =>
      ((b - 240) * 262144 + (b2 - 128) * 4096 + (b3 - 128) * 64 + (b4 - 128), r)
    | _ => (65533, [])

/-- UTF-8 decoding of a byte string, one step at a time. -/
def utf8Decode : List Nat → PyStr
  | [] => []
  | b :: rest =>
    (utf8DecodeStep b rest).1 :: utf8Decode (utf8DecodeStep b rest).2
termination_by l => l.length
decreasing_by
  have h : (utf8DecodeStep b rest).2.length ≤ rest.length := by
    rcases rest with _ | ⟨b2, _ | ⟨b3, _ | ⟨b4, r⟩⟩⟩ <;>
      (unfold utf8DecodeStep; split_ifs <;> (try simp) <;> omega)
  simp only [List.length_cons]
  omega

/-! ## Percent-encoding (`urllib.parse.quote` with `safe=""`) -/

/-- The bytes `urllib.parse.quote` never escapes (`_ALWAYS_SAFE`): ASCII
letters, digits, and `_ . - ~`.  With `safe=""` everything else is escaped. -/
def safeByte (b : Nat) : Bool :=
  (48 ≤ b && b ≤ 57) || (65 ≤ b && b ≤ 90) || (97 ≤ b && b ≤ 122) ||
    b == 95 || b == 46 || b == 45 || b == 126

/-- Uppercase hex digit for a nibble, as a code point (`%XX` uses uppercase). -/
def hexUpper (n : Nat) : Nat := if n < 10 then 48 + n else 55 + n

/-- Model of `urllib.parse.quote(·, safe="")` at the byte level: each unsafe byte
becomes `%` followed by two uppercase hex digits. -/
def quoteB (l : List Nat) : List Nat :=
  l.flatMap fun b =>
    if safeByte b then [b] else [37, hexUpper (b / 16), hexUpper (b % 16)]

/-- Value of a hex-digit code point (both cases, as `urllib.parse.unquote`
accepts), `none` if not a hex digit. -/
def hexVal (c : Nat) : Option Nat :=
  if 48 ≤ c ∧ c ≤ 57 then some (c - 48)
  else if 65 ≤ c ∧ c ≤ 70 then some (c - 55)
  else if 97 ≤ c ∧ c ≤ 102 then some (c - 87)
  else none

/-- One percent-decoding pass at the byte level (the byte semantics of
`urllib.parse.unquote`): `%XY` with hex digits `X`, `Y` becomes the byte
`16*X + Y`; a `%` not followed by two hex digits is kept literally. -/
def unquoteB : List Nat → List Nat
  | [] => []
  | 37 :: a :: b :: rest =>
    match hexVal a, hexVal b with
    | some x, some y => (16 * x + y) :: unquoteB rest
    | _, _ => 37 :: unquoteB (a :: b :: rest)
  | 37 :: rest => 37 :: unquoteB rest
  | c :: rest => c :: unquoteB rest

/-- Model of `AuthenticatedHippo._encode_path_segment`:
`urllib.parse.quote(urllib.parse.quote(path_segment, safe=""), safe="")`.
The outer `quote` acts on the ASCII output of the inner one, so at the
byte/code-point level it is `quoteB` applied twice to the UTF-8 bytes. -/
def encode_path_segment (s : PyStr) : PyStr := quoteB (quoteB (utf8Encode s))

/-- Modelled from the spec: the service's two-pass decoder (it is not part of
this repository).  The service percent-decodes once when splitting the request
target into path segments and once more when interpreting the segment, then
reads the result as UTF-8 text. -/
def serviceDecode (bs : List Nat) : PyStr := utf8Decode (unquoteB (unquoteB bs))

/-- The request path built by `read_document` / `update_document` /
`delete_document`:
`"api/" + enc(database_path) + "/" + enc(name)` (code point 47 is `/`). -/
def docRequestPath (databasePath name : PyStr) : PyStr :=
  strLit "api/" ++ encode_path_segment databasePath ++ [47]
    ++ encode_path_segment name

/-! ## JSON values, errors, and the transport model -/

/-- A JSON value (document contents, response bodies). -/
inductive Json where
  | null : Json
  | bool (b : Bool) : Json
  | num (n : Int) : Json
  | str (s : PyStr) : Json
  | arr (l : List Json) : Json
  | obj (fields : List (PyStr × Json)) : Json

/-- Errors a client call can surface. `closedClient` models the error the
connection context raises when used after `close()` (the spec's
`ClosedClientError`); `serviceError` is the spec's `ServiceError{status, body}`;
`decodeError` is a response-shape validation failure; `notCallableTypeError`
models the `TypeError` raised by evaluating `NotImplemented(...)`, since
`NotImplemented` is not callable. -/
inductive PyErr where
  | closedClient : PyErr
  | decodeError : PyErr
  | serviceError (status : Nat) (body : Json) : PyErr
  | notCallableTypeError : PyErr

/-- HTTP method used by a request. -/
inductive HMethod where
  | get | post | put | delete
deriving DecidableEq

/-- Modelled from the spec: one connection context (aiohttp `ClientSession`):
optional Basic credentials fixed at creation, and an open/closed flag. -/
structure HSession where
  auth : Option (PyStr × PyStr)
  closed : Bool
deriving DecidableEq

/-- An outgoing HTTP request as observed on the wire: method, base URL,
path handed to `URL.joinpath`, query parameters, optional JSON body, and the
Basic credentials the connection context attaches. -/
structure HRequest where
  method : HMethod
  base : PyStr
  path : PyStr
  params : List (PyStr × PyStr)
  jsonBody : Option Json
  auth : Option (PyStr × PyStr)

/-- An HTTP response from the service: status code and JSON body. -/
structure HResponse where
  status : Nat
  body : Json

/-- Modelled from the spec: the transport environment. Holds every connection
context ever opened (addressed by a session id, `nextSid` fresh), the trace of
requests that actually went out on the wire, and an oracle giving the service's
response to each request. -/
structure World where
  sessions : Nat → HSession
  nextSid : Nat
  trace : List HRequest
  respond : HRequest → HResponse

/-- A client object (`Hippo` or `AuthenticatedHippo`): its base URL and the id
of the connection context it exclusively owns. -/
structure Client where
  url : PyStr
  sid : Nat
deriving DecidableEq

/-- Modelled from the spec: issuing one request on a client's connection
context. A closed context fails with `closedClient` before any network
traffic (aiohttp raises on a closed session); an open one attaches its
credentials, sends the request (appending it to the wire trace) and returns
the oracle's response. -/
def Client.request (c : Client) (method : HMethod) (path : PyStr)
    (params : List (PyStr × PyStr)) (jsonBody : Option Json) (w : World) :
    Except PyErr HResponse × World :=
  let s := w.sessions c.sid
  if s.closed then (Except.error PyErr.closedClient, w)
  else
    let req : HRequest :=
      { method := method, base := c.url, path := path, params := params,
        jsonBody := jsonBody, auth := s.auth }
    (Except.ok (w.respond req), { w with trace := w.trace ++ [req] })

/-- Model of `str(b).lower()` for a Python bool: the literal `"true"` / `"false"`. -/
def pyBoolStr (b : Bool) : PyStr := if b then strLit "true" else strLit "false"

/-! ## The typed value records and their pydantic-style validation -/

/-- Model of `ApplicationInfo` (pydantic model): `id` and `name` strings. -/
structure ApplicationInfo where
  id : PyStr
  name : PyStr
deriving DecidableEq

/-- Validation of a JSON object into `ApplicationInfo`
(`ApplicationInfo(**app)`): requires string fields `id` and `name`. -/
def ApplicationInfo.ofJson : Json → Except PyErr ApplicationInfo
  | Json.obj fields =>
    match fields.lookup (strLit "id"), fields.lookup (strLit "name") with
    | some (Json.str i), some (Json.str n) =>
      Except.ok { id := i, name := n }
    | _, _ => Except.error PyErr.decodeError
  | _ => Except.error PyErr.decodeError

/-- Model of `DatabaseInfo` (pydantic model): a single `path` string. -/
structure DatabaseInfo where
  path : PyStr
deriving DecidableEq

/-- Validation of a JSON object into `DatabaseInfo` (`DatabaseInfo(**v)`). -/
def DatabaseInfo.ofJson : Json → Except PyErr DatabaseInfo
  | Json.obj fields =>
    match fields.lookup (strLit "path") with
    | some (Json.str p) => Except.ok { path := p }
    | _ => Except.error PyErr.decodeError
  | _ => Except.error PyErr.decodeError

/-- Parse a JSON array elementwise (`[Model(**v) for v in await
response.json()]`). -/
def parseList (f : Json → Except PyErr α) : Json → Except PyErr (List α)
  | Json.arr l => l.mapM f
  | _ => Except.error PyErr.decodeError

/-! ## `Hippo` (Session Client) operations -/

/-- Model of `Hippo.__init__(_is_from_internal=False)`: without the internal flag it
executes `raise NotImplemented(...)`; evaluating `NotImplemented(...)` raises
`TypeError` (`NotImplemented` is not callable), so no instance is produced.
With the flag it returns normally (fields are filled in by `create`). -/
def Hippo.init (isFromInternal : Bool) : Except PyErr Unit :=
  if isFromInternal then Except.ok () else Except.error PyErr.notCallableTypeError

/-- Model of `Hippo.create(url)`: opens a fresh connection context with no
credentials and returns a client bound to `url` owning it. -/
def Hippo.create (url : PyStr) (w : World) : Client × World :=
  let sid := w.nextSid
  ({ url := url, sid := sid },
   { w with
      sessions := fun i =>
        if i = sid then { auth := none, closed := false } else w.sessions i,
      nextSid := sid + 1 })

/-- Model of `Hippo.close()`: `await self.session.close()` — marks the client's
connection context closed. -/
def Hippo.close (c : Client) (w : World) : World :=
  { w with
      sessions := fun i =>
        if i = c.sid then { w.sessions c.sid with closed := true }
        else w.sessions i }

/-- Model of `Hippo.server_info()`: GET `api/`; `ServerInfo(...)` is a `TypedDict`
constructor, the identity on the decoded JSON. -/
def Hippo.server_info (c : Client) (w : World) : Except PyErr Json × World :=
  let (r, w') := c.request HMethod.get (strLit "api/") [] none w
  (r.map (fun resp => resp.body), w')

/-- Model of `Hippo.list_apps()`: GET `api/apps`, each element validated into
`ApplicationInfo`. -/
def Hippo.list_apps (c : Client) (w : World) :
    Except PyErr (List ApplicationInfo) × World :=
  let (r, w') := c.request HMethod.get (strLit "api/apps") [] none w
  (r.bind (fun resp => parseList ApplicationInfo.ofJson resp.body), w')

/-- Model of `Hippo.new_app(name)`: POST `api/apps/new` with query parameter `name`. -/
def Hippo.new_app (c : Client) (name : PyStr) (w : World) :
    Except PyErr ApplicationInfo × World :=
  let (r, w') := c.request HMethod.post (strLit "api/apps/new")
    [(strLit "name", name)] none w
  (r.bind (fun resp => ApplicationInfo.ofJson resp.body), w')

/-- Model of `Hippo.new_token(application, writeable=False)`: POST `api/tokens/new`
with query parameters `app_id` and `writeable` (via `str(writeable).lower()`);
`HippoToken(...)` is a `NewType`, the identity on the decoded JSON. -/
def Hippo.new_token (c : Client) (application : PyStr) (writeable : Bool)
    (w : World) : Except PyErr Json × World :=
  let (r, w') := c.request HMethod.post (strLit "api/tokens/new")
    [(strLit "app_id", application), (strLit "writeable", pyBoolStr writeable)]
    none w
  (r.map (fun resp => resp.body), w')

/-! ## `AuthenticatedHippo` operations -/

/-- Model of `AuthenticatedHippo.create(url, application, token)`: opens a fresh
connection context with `BasicAuth(application, token, encoding="utf-8")`. -/
def AuthenticatedHippo.create (url application token : PyStr) (w : World) :
    Client × World :=
  let sid := w.nextSid
  ({ url := url, sid := sid },
   { w with
      sessions := fun i =>
        if i = sid then { auth := some (application, token), closed := false }
        else w.sessions i,
      nextSid := sid + 1 })

/-- Model of `Hippo.authenticate(application, token)`:
`await AuthenticatedHippo.create(self.url, application, token)`. It touches
only `self.url`, never `self.session`, and cannot raise. -/
def Hippo.authenticate (c : Client) (application token : PyStr) (w : World) :
    Except PyErr Client × World :=
  let (c', w') := AuthenticatedHippo.create c.url application token w
  (Except.ok c', w')

/-- Model of `AuthenticatedHippo.delete_app(application)`: DELETE `api/apps/delete`
with query parameter `app_id`; the response body is discarded. -/
def AuthenticatedHippo.delete_app (c : Client) (application : PyStr)
    (w : World) : Except PyErr Unit × World :=
  let (r, w') := c.request HMethod.delete (strLit "api/apps/delete")
    [(strLit "app_id", application)] none w
  (r.map (fun _ => ()), w')

/-- Model of `AuthenticatedHippo.delete_token(token)`: DELETE `api/tokens/delete`
with query parameter `token_id`; the response body is discarded. -/
def AuthenticatedHippo.delete_token (c : Client) (token : PyStr) (w : World) :
    Except PyErr Unit × World :=
  let (r, w') := c.request HMethod.delete (strLit "api/tokens/delete")
    [(strLit "token_id", token)] none w
  (r.map (fun _ => ()), w')

/-- Model of `AuthenticatedHippo.create_database(path)`: POST `api/create_db` with the
raw `path` as a query parameter (no segment encoding), response validated
into `DatabaseInfo`. -/
def AuthenticatedHippo.create_database (c : Client) (path : PyStr) (w : World) :
    Except PyErr DatabaseInfo × World :=
  let (r, w') := c.request HMethod.post (strLit "api/create_db")
    [(strLit "path", path)] none w
  (r.bind (fun resp => DatabaseInfo.ofJson resp.body), w')

/-- Model of `AuthenticatedHippo.list_dbs(path="/", recursive=False)`: GET
`api/dbs/` + encoded path with query parameter `recursive`. -/
def AuthenticatedHippo.list_dbs (c : Client) (path : PyStr) (recursive : Bool)
    (w : World) : Except PyErr (List DatabaseInfo) × World :=
  let (r, w') := c.request HMethod.get
    (strLit "api/dbs/" ++ encode_path_segment path)
    [(strLit "recursive", pyBoolStr recursive)] none w
  (r.bind (fun resp => parseList DatabaseInfo.ofJson resp.body), w')

/-- Model of `AuthenticatedHippo.list_documents(path)`: GET `api/` + encoded path. -/
def AuthenticatedHippo.list_documents (c : Client) (path : PyStr) (w : World) :
    Except PyErr Json × World :=
  let (r, w') := c.request HMethod.get
    (strLit "api/" ++ encode_path_segment path) [] none w
  (r.map (fun resp => resp.body), w')

/-- Model of `AuthenticatedHippo.delete_database(path)`: DELETE `api/` + encoded path;
the response body is discarded. -/
def AuthenticatedHippo.delete_database (c : Client) (path : PyStr) (w : World) :
    Except PyErr Unit × World :=
  let (r, w') := c.request HMethod.delete
    (strLit "api/" ++ encode_path_segment path) [] none w
  (r.map (fun _ => ()), w')

/-- Model of `AuthenticatedHippo.create_document(database_path, name, contents)`: POST
`api/` + encoded database path with query parameter `document_name` and
`contents` as the JSON body. -/
def AuthenticatedHippo.create_document (c : Client) (databasePath name : PyStr)
    (contents : Json) (w : World) : Except PyErr Json × World :=
  let (r, w') := c.request HMethod.post
    (strLit "api/" ++ encode_path_segment databasePath)
    [(strLit "document_name", name)] (some contents) w
  (r.map (fun resp => resp.body), w')

/-- Model of `AuthenticatedHippo.read_document(database_path, name)`: GET
`api/` + encoded database path + `/` + encoded name, returning the decoded
JSON body as-is. -/
def AuthenticatedHippo.read_document (c : Client) (databasePath name : PyStr)
    (w : World) : Except PyErr Json × World :=
  let (r, w') := c.request HMethod.get (docRequestPath databasePath name)
    [] none w
  (r.map (fun resp => resp.body), w')

/-- Model of `AuthenticatedHippo.document_exists(database_path, name)`: GET the
document path with an `/exists` suffix. -/
def AuthenticatedHippo.document_exists (c : Client) (databasePath name : PyStr)
    (w : World) : Except PyErr Json × World :=
  let (r, w') := c.request HMethod.get
    (docRequestPath databasePath name ++ strLit "/exists") [] none w
  (r.map (fun resp => resp.body), w')

/-- Model of `AuthenticatedHippo.update_document(database_path, name, contents)`: PUT
the document path with `contents` as the JSON body; response discarded. -/
def AuthenticatedHippo.update_document (c : Client) (databasePath name : PyStr)
    (contents : Json) (w : World) : Except PyErr Unit × World :=
  let (r, w') := c.request HMethod.put (docRequestPath databasePath name)
    [] (some contents) w
  (r.map (fun _ => ()), w')

/-- Model of `AuthenticatedHippo.delete_document(database_path, name)`: DELETE the
document path; response discarded. -/
def AuthenticatedHippo.delete_document (c : Client) (databasePath name : PyStr)
    (w : World) : Except PyErr Unit × World :=
  let (r, w') := c.request HMethod.delete (docRequestPath databasePath name)
    [] none w
  (r.map (fun _ => ()), w')

/-- The request a client with session auth in `w` sends for a given method,
path, query parameters and body (abbreviation used in theorem statements). -/
def apiReq (m : HMethod) (c : Client) (w : World) (path : PyStr)
    (ps : List (PyStr × PyStr)) (j : Option Json) : HRequest :=
  { method := m, base := c.url, path := path, params := ps, jsonBody := j,
    auth := (w.sessions c.sid).auth }

/-! ## Concrete example transport states -/

/-- An oracle always answering 200 with a null body. -/
def oracleOk : HRequest → HResponse := fun _ => { status := 200, body := Json.null }

/-- An initial world: no sessions opened yet, empty wire trace. -/
def w0ex : World :=
  { sessions := fun _ => { auth := none, closed := false }, nextSid := 0,
    trace := [], respond := oracleOk }

/-- A session client created against `w0ex`. -/
def cEx : Client := (Hippo.create (strLit "u") w0ex).1

/-- The world after creating `cEx`. -/
def w1ex : World := (Hippo.create (strLit "u") w0ex).2

/-- The world after `cEx` has been closed. -/
def wClosedEx : World := Hippo.close cEx w1ex

/-- A JSON error body, as a service might send with a 404. -/
def notFoundJson : Json :=
  Json.obj [(strLit "error", Json.str (strLit "not found"))]

/-- An oracle always answering 404 with `notFoundJson`. -/
def oracle404 : HRequest → HResponse := fun _ =>
  { status := 404, body := notFoundJson }

/-- A world with one open authenticated session (id 0) whose service answers
every request with status 404. -/
def w404 : World :=
  { sessions := fun _ =>
      { auth := some (strLit "app", strLit "tok"), closed := false },
    nextSid := 1, trace := [], respond := oracle404 }

/-- A client owning session 0 of `w404`. -/
def c404 : Client := { url := strLit "u", sid := 0 }

/-! ## Helper lemmas: percent-encoding -/

lemma hexVal_hexUpper {n : Nat} (h : n < 16) : hexVal (hexUpper n) = some n := by
  interval_cases n <;> rfl

lemma safeByte_hexUpper {n : Nat} (h : n < 16) : safeByte (hexUpper n) = true := by
  interval_cases n <;> rfl

lemma safeByte_ne_37 {b : Nat} (h : safeByte b = true) : b ≠ 37 := by
  intro hb; subst hb; simp [safeByte] at h

lemma safeByte_lt_128 {b : Nat} (h : safeByte b = true) : b < 128 := by
  simp only [safeByte, Bool.or_eq_true, Bool.and_eq_true, decide_eq_true_eq,
    beq_iff_eq] at h
  omega

lemma unquoteB_cons_ne {c : Nat} (h : c ≠ 37) (t : List Nat) :
    unquoteB (c :: t) = c :: unquoteB t := by
  match t with
  | [] => simp [unquoteB, h]
  | [a] => simp [unquoteB, h]
  | a :: b :: r => simp [unquoteB, h]

lemma unquoteB_percent {a b x y : Nat} (ha : hexVal a = some x)
    (hb : hexVal b = some y) (rest : List Nat) :
    unquoteB (37 :: a :: b :: rest) = (16 * x + y) :: unquoteB rest := by
  simp [unquoteB, ha, hb]

/-- Percent-decoding inverts percent-encoding, bytewise. -/
lemma unquoteB_quoteB {l : List Nat} (h : ∀ b ∈ l, b < 256) :
    unquoteB (quoteB l) = l := by
  induction l with
  | nil => rfl
  | cons c t ih =>
    have hc : c < 256 := h c (List.mem_cons_self c t)
    have ht : ∀ b ∈ t, b < 256 := fun b hb => h b (List.mem_cons_of_mem c hb)
    by_cases hs : safeByte c = true
    · rw [show quoteB (c :: t) = [c] ++ quoteB t by simp [quoteB, hs]]
      rw [List.singleton_append, unquoteB_cons_ne (safeByte_ne_37 hs)]
      exact congrArg _ (ih ht)
    · rw [show quoteB (c :: t)
          = 37 :: hexUpper (c / 16) :: hexUpper (c % 16) :: quoteB t by
        simp [quoteB, hs]]
      have ha : hexVal (hexUpper (c / 16)) = some (c / 16) :=
        hexVal_hexUpper (by omega)
      have hb : hexVal (hexUpper (c % 16)) = some (c % 16) :=
        hexVal_hexUpper (by omega)
      rw [unquoteB_percent ha hb]
      have hcc : 16 * (c / 16) + c % 16 = c := by omega
      rw [hcc]
      exact congrArg _ (ih ht)

/-- Every byte of a percent-encoded byte string is a safe byte or `%`. -/
lemma mem_quoteB {l : List Nat} (h : ∀ b ∈ l, b < 256) :
    ∀ b' ∈ quoteB l, safeByte b' = true ∨ b' = 37 := by
  intro b' hb'
  simp only [quoteB, List.mem_flatMap] at hb'
  obtain ⟨b, hb, hmem⟩ := hb'
  have hb256 : b < 256 := h b hb
  by_cases hs : safeByte b = true
  · rw [if_pos hs] at hmem
    simp only [List.mem_singleton] at hmem
    exact Or.inl (hmem ▸ hs)
  · rw [if_neg hs] at hmem
    simp only [List.mem_cons, List.not_mem_nil, or_false] at hmem
    rcases hmem with rfl | rfl | rfl
    · exact Or.inr rfl
    · exact Or.inl (safeByte_hexUpper (by omega))
    · exact Or.inl (safeByte_hexUpper (by omega))

/-- Percent-encoded output is ASCII (given byte input). -/
lemma quoteB_lt_128 {l : List Nat} (h : ∀ b ∈ l, b < 256) :
    ∀ b' ∈ quoteB l, b' < 128 := by
  intro b' hb'
  rcases mem_quoteB h b' hb' with hs | rfl
  · exact safeByte_lt_128 hs
  · omega

/-- A percent-encoded string never contains a literal `/` (code 47). -/
lemma slash_not_mem_quoteB (l : List Nat) : 47 ∉ quoteB l := by
  intro hmem
  simp only [quoteB, List.mem_flatMap] at hmem
  obtain ⟨b, _, hmem⟩ := hmem
  by_cases hs : safeByte b = true
  · rw [if_pos hs] at hmem
    simp only [List.mem_singleton] at hmem
    subst hmem
    simp [safeByte] at hs
  · rw [if_neg hs] at hmem
    simp only [List.mem_cons, List.not_mem_nil, or_false] at hmem
    rcases hmem with h47 | h47 | h47
    · omega
    · unfold hexUpper at h47; split at h47 <;> omega
    · unfold hexUpper at h47; split at h47 <;> omega


/-! ## Helper lemmas: UTF-8 -/

lemma utf8Decode_cons (b : Nat) (rest : List Nat) :
    utf8Decode (b :: rest)
      = (utf8DecodeStep b rest).1 :: utf8Decode (utf8DecodeStep b rest).2 := by
  simp only [utf8Decode]

lemma utf8DecodeStep_one {c : Nat} (h1 : c < 128) (rest : List Nat) :
    utf8DecodeStep c rest = (c, rest) := by
  unfold utf8DecodeStep
  rw [if_pos h1]

lemma utf8DecodeStep_two {c : Nat} (h1 : ¬c < 128) (h2 : c < 2048)
    (rest : List Nat) :
    utf8DecodeStep (192 + c / 64) ((128 + c % 64) :: rest) = (c, rest) := by
  unfold utf8DecodeStep
  rw [if_neg (by omega), if_pos (by omega)]
  show ((192 + c / 64 - 192) * 64 + (128 + c % 64 - 128), rest) = (c, rest)
  congr 1
  omega

lemma utf8DecodeStep_three {c : Nat} (h2 : ¬c < 2048) (h3 : c < 65536)
    (rest : List Nat) :
    utf8DecodeStep (224 + c / 4096)
      ((128 + (c / 64) % 64) :: (128 + c % 64) :: rest) = (c, rest) := by
  unfold utf8DecodeStep
  rw [if_neg (by omega), if_neg (by omega), if_pos (by omega)]
  show ((224 + c / 4096 - 224) * 4096 + (128 + (c / 64) % 64 - 128) * 64
      + (128 + c % 64 - 128), rest) = (c, rest)
  congr 1
  omega

lemma utf8DecodeStep_four {c : Nat} (h3 : ¬c < 65536) (rest : List Nat) :
    utf8DecodeStep (240 + c / 262144)
      ((128 + (c / 4096) % 64) :: (128 + (c / 64) % 64) :: (128 + c % 64)
        :: rest) = (c, rest) := by
  unfold utf8DecodeStep
  rw [if_neg (by omega), if_neg (by omega), if_neg (by omega)]
  show ((240 + c / 262144 - 240) * 262144 + (128 + (c / 4096) % 64 - 128) * 4096
      + (128 + (c / 64) % 64 - 128) * 64 + (128 + c % 64 - 128), rest)
      = (c, rest)
  congr 1
  omega

/-- Decoding the UTF-8 bytes of one code point prepended to anything. -/
lemma utf8Decode_encodeChar (c : Nat) (rest : List Nat) :
    utf8Decode (utf8EncodeChar c ++ rest) = c :: utf8Decode rest := by
  by_cases h1 : c < 128
  · rw [show utf8EncodeChar c = [c] by simp [utf8EncodeChar, h1],
      List.singleton_append, utf8Decode_cons, utf8DecodeStep_one h1]
  · by_cases h2 : c < 2048
    · rw [show utf8EncodeChar c = [192 + c / 64, 128 + c % 64] by
        simp [utf8EncodeChar, h1, h2]]
      simp only [List.cons_append, List.nil_append]
      rw [utf8Decode_cons, utf8DecodeStep_two h1 h2]
    · by_cases h3 : c < 65536
      · rw [show utf8EncodeChar c
            = [224 + c / 4096, 128 + (c / 64) % 64, 128 + c % 64] by
          simp [utf8EncodeChar, h1, h2, h3]]
        simp only [List.cons_append, List.nil_append]
        rw [utf8Decode_cons, utf8DecodeStep_three h2 h3]
      · rw [show utf8EncodeChar c
            = [240 + c / 262144, 128 + (c / 4096) % 64, 128 + (c / 64) % 64,
               128 + c % 64] by simp [utf8EncodeChar, h1, h2, h3]]
        simp only [List.cons_append, List.nil_append]
        rw [utf8Decode_cons, utf8DecodeStep_four h3]

/-- UTF-8 decoding inverts UTF-8 encoding. -/
lemma utf8Decode_utf8Encode (s : PyStr) : utf8Decode (utf8Encode s) = s := by
  induction s with
  | nil =>
    show utf8Decode [] = []
    simp only [utf8Decode]
  | cons c t ih =>
    rw [show utf8Encode (c :: t) = utf8EncodeChar c ++ utf8Encode t by
      simp [utf8Encode]]
    rw [utf8Decode_encodeChar, ih]

lemma utf8EncodeChar_lt_256 {c : Nat} (h : c < 1114112) :
    ∀ b ∈ utf8EncodeChar c, b < 256 := by
  intro b hb
  unfold utf8EncodeChar at hb
  split_ifs at hb with h1 h2 h3 <;>
    simp only [List.mem_cons, List.not_mem_nil, or_false] at hb
  · omega
  · rcases hb with rfl | rfl <;> omega
  · rcases hb with rfl | rfl | rfl <;> omega
  · rcases hb with rfl | rfl | rfl | rfl <;> omega

lemma utf8Encode_lt_256 {s : PyStr} (h : ∀ c ∈ s, c < 1114112) :
    ∀ b ∈ utf8Encode s, b < 256 := by
  intro b hb
  simp only [utf8Encode, List.mem_flatMap] at hb
  obtain ⟨c, hc, hb⟩ := hb
  exact utf8EncodeChar_lt_256 (h c hc) b hb

/-! ## The encoding round trip and segment injectivity -/

lemma unquoteB_unquoteB_encode {s : PyStr} (h : ∀ c ∈ s, c < 1114112) :
    unquoteB (unquoteB (encode_path_segment s)) = utf8Encode s := by
  unfold encode_path_segment
  have h0 : ∀ b ∈ utf8Encode s, b < 256 := utf8Encode_lt_256 h
  have h1 : ∀ b ∈ quoteB (utf8Encode s), b < 256 := fun b hb =>
    Nat.lt_of_lt_of_le (quoteB_lt_128 h0 b hb) (by omega)
  rw [unquoteB_quoteB h1, unquoteB_quoteB h0]

/-- The simulated service decoder recovers any string from its double
percent-encoding. -/
lemma serviceDecode_encode {s : PyStr} (h : ∀ c ∈ s, c < 1114112) :
    serviceDecode (encode_path_segment s) = s := by
  unfold serviceDecode
  rw [unquoteB_unquoteB_encode h, utf8Decode_utf8Encode]

lemma validCp_lt {s : PyStr} (hs : ∀ c ∈ s, ValidCp c) :
    ∀ c ∈ s, c < 1114112 := by
  intro c hc
  rcases hs c hc with h | ⟨_, h⟩ <;> omega

/-- Double encoding is injective on strings. -/
lemma encode_path_segment_inj {s1 s2 : PyStr} (h1 : ∀ c ∈ s1, c < 1114112)
    (h2 : ∀ c ∈ s2, c < 1114112)
    (h : encode_path_segment s1 = encode_path_segment s2) : s1 = s2 := by
  have hd := congrArg serviceDecode h
  rwa [serviceDecode_encode h1, serviceDecode_encode h2] at hd

/-- Splitting at a separator that occurs in neither left part is unambiguous. -/
lemma append_sep_inj {e1 e2 f1 f2 : List Nat} (h1 : 47 ∉ e1) (h2 : 47 ∉ e2)
    (h : e1 ++ 47 :: f1 = e2 ++ 47 :: f2) : e1 = e2 ∧ f1 = f2 := by
  induction e1 generalizing e2 with
  | nil =>
    cases e2 with
    | nil => simpa using h
    | cons b t2 =>
      simp only [List.nil_append, List.cons_append, List.cons.injEq] at h
      exact absurd (List.mem_cons_self b t2) (h.1 ▸ h2)
  | cons a t ih =>
    cases e2 with
    | nil =>
      simp only [List.nil_append, List.cons_append, List.cons.injEq] at h
      exact absurd (List.mem_cons_self a t) (h.1.symm ▸ h1)
    | cons b t2 =>
      simp only [List.cons_append, List.cons.injEq] at h
      obtain ⟨rfl, h⟩ := h
      have ht := ih (fun hm => h1 (List.mem_cons_of_mem a hm))
        (fun hm => h2 (List.mem_cons_of_mem a hm)) h
      exact ⟨by rw [ht.1], ht.2⟩

lemma slash_not_mem_encode (s : PyStr) : 47 ∉ encode_path_segment s :=
  slash_not_mem_quoteB _

/-! ## Claim theorems -/

/-- C1. Path-encoding round trip: for every string `s` (the hypothesis says
only that `s` is a genuine string, i.e. a sequence of Unicode scalar values —
including the empty string and strings containing `/`, `%`, spaces, and
multi-byte characters), applying the two-pass service decoder to
`_encode_path_segment(s)` yields exactly `s`. -/
theorem C1_roundtrip (s : PyStr) (hs : ∀ c ∈ s, ValidCp c) :
    serviceDecode (encode_path_segment s) = s :=
  serviceDecode_encode (validCp_lt hs)

theorem C1_roundtrip_witness :
    (∀ c ∈ strLit "a/b %2F é😀", ValidCp c) ∧
      serviceDecode (encode_path_segment (strLit "a/b %2F é😀"))
        = strLit "a/b %2F é😀" :=
  ⟨by decide, C1_roundtrip (strLit "a/b %2F é😀") (by decide)⟩

/-- C2. `_encode_path_segment` percent-encodes twice leaving nothing
unescaped: the result contains no literal `/` (code 47), and it arises from
the first pass by escaping exactly the `%` signs (code 37) to `%25`
(codes 37, 50, 53), each other first-pass byte being kept as-is. -/
theorem C2_double_encode (s : PyStr) (hs : ∀ c ∈ s, ValidCp c) :
    47 ∉ encode_path_segment s ∧
      encode_path_segment s
        = (quoteB (utf8Encode s)).flatMap
            (fun b => if b = 37 then strLit "%25" else [b]) := by
  constructor
  · exact slash_not_mem_encode s
  · have h0 : ∀ b ∈ utf8Encode s, b < 256 :=
      utf8Encode_lt_256 (validCp_lt hs)
    have hm : ∀ b ∈ quoteB (utf8Encode s), safeByte b = true ∨ b = 37 :=
      mem_quoteB h0
    show quoteB (quoteB (utf8Encode s)) = _
    generalize hql : quoteB (utf8Encode s) = l at hm
    clear hql
    induction l with
    | nil => rfl
    | cons c t ih =>
      have hc := hm c (List.mem_cons_self c t)
      have ht := fun b hb => hm b (List.mem_cons_of_mem c hb)
      rw [show quoteB (c :: t) = (if safeByte c then [c]
            else [37, hexUpper (c / 16), hexUpper (c % 16)]) ++ quoteB t by
          simp [quoteB]]
      rw [List.flatMap_cons, ih ht]
      rcases hc with hcs | rfl
      · rw [if_pos hcs, if_neg (safeByte_ne_37 hcs)]
      · rw [if_neg (by simp [safeByte]), if_pos rfl]
        rfl

theorem C2_double_encode_witness :
    (∀ c ∈ strLit "a/b%c", ValidCp c) ∧
      (47 ∉ encode_path_segment (strLit "a/b%c") ∧
        encode_path_segment (strLit "a/b%c")
          = (quoteB (utf8Encode (strLit "a/b%c"))).flatMap
              (fun b => if b = 37 then strLit "%25" else [b])) :=
  ⟨by decide, C2_double_encode (strLit "a/b%c") (by decide)⟩

/-- C10. Document addressing is injective: two document addresses
`(databasePath, name)` differing in at least one component produce different
request paths `"api/" + enc(databasePath) + "/" + enc(name)` in
`read_document` / `update_document` / `delete_document`. -/
theorem C10_doc_address_injective (d1 n1 d2 n2 : PyStr)
    (hd1 : ∀ c ∈ d1, ValidCp c) (hn1 : ∀ c ∈ n1, ValidCp c)
    (hd2 : ∀ c ∈ d2, ValidCp c) (hn2 : ∀ c ∈ n2, ValidCp c)
    (hne : d1 ≠ d2 ∨ n1 ≠ n2) :
    docRequestPath d1 n1 ≠ docRequestPath d2 n2 := by
  intro h
  unfold docRequestPath at h
  rw [List.append_assoc, List.append_assoc, List.append_assoc,
    List.append_assoc] at h
  have h' := List.append_cancel_left h
  rw [List.cons_append, List.nil_append, List.cons_append,
    List.nil_append] at h'
  have hsep := append_sep_inj (slash_not_mem_encode d1)
    (slash_not_mem_encode d2) h'
  have hd : d1 = d2 := encode_path_segment_inj (validCp_lt hd1)
    (validCp_lt hd2) hsep.1
  have hn : n1 = n2 := encode_path_segment_inj (validCp_lt hn1)
    (validCp_lt hn2) hsep.2
  rcases hne with hne | hne
  · exact hne hd
  · exact hne hn

theorem C10_doc_address_injective_witness :
    (∀ c ∈ strLit "a", ValidCp c) ∧ (∀ c ∈ strLit "b", ValidCp c) ∧
      (∀ c ∈ strLit "c", ValidCp c) ∧
      (strLit "a" ≠ strLit "c" ∨ strLit "b" ≠ strLit "b") ∧
      docRequestPath (strLit "a") (strLit "b")
        ≠ docRequestPath (strLit "c") (strLit "b") :=
  ⟨by decide, by decide, by decide, Or.inl (by decide),
    C10_doc_address_injective (strLit "a") (strLit "b") (strLit "c")
      (strLit "b") (by decide) (by decide) (by decide) (by decide)
      (Or.inl (by decide))⟩

/-- C9. Calling the constructor directly (`Hippo(...)` or
`AuthenticatedHippo(...)`, which inherits `Hippo.__init__`) without the
internal flag always raises an exception — in fact a `TypeError`, because
`raise NotImplemented(...)` calls the non-callable `NotImplemented` — and
never yields a usable client instance. -/
theorem C9_init_raises :
    Hippo.init false = Except.error PyErr.notCallableTypeError := rfl

/-- C7. `new_token(application, writeable)` issues a POST to
`api/tokens/new` with query parameters `app_id` = the application id and
`writeable` = the lowercase literal `"true"` or `"false"` according to the
flag (with `writeable=False` as the Python default). -/
theorem C7_new_token (c : Client) (w : World) (ap : PyStr) (wr : Bool)
    (ho : (w.sessions c.sid).closed = false) :
    (Hippo.new_token c ap wr w).2.trace = w.trace ++
      [{ method := HMethod.post, base := c.url,
         path := strLit "api/tokens/new",
         params := [(strLit "app_id", ap),
           (strLit "writeable",
             if wr then strLit "true" else strLit "false")],
         jsonBody := none, auth := (w.sessions c.sid).auth }] := by
  simp [Hippo.new_token, Client.request, pyBoolStr, ho]

theorem C7_new_token_witness :
    (w1ex.sessions cEx.sid).closed = false ∧
      (Hippo.new_token cEx (strLit "app") true w1ex).2.trace = w1ex.trace ++
        [{ method := HMethod.post, base := cEx.url,
           path := strLit "api/tokens/new",
           params := [(strLit "app_id", strLit "app"),
             (strLit "writeable",
               if true then strLit "true" else strLit "false")],
           jsonBody := none, auth := (w1ex.sessions cEx.sid).auth }] :=
  ⟨by decide, C7_new_token cEx w1ex (strLit "app") true (by decide)⟩

/-- C8. `create_database(path)` issues a POST to `api/create_db` with the
raw, not segment-encoded, `path` as the value of the query parameter `path`,
and returns the response body decoded into `DatabaseInfo`. -/
theorem C8_create_database (c : Client) (w : World) (p : PyStr)
    (ho : (w.sessions c.sid).closed = false) :
    (AuthenticatedHippo.create_database c p w).2.trace = w.trace ++
        [apiReq HMethod.post c w (strLit "api/create_db")
          [(strLit "path", p)] none] ∧
      (AuthenticatedHippo.create_database c p w).1
        = DatabaseInfo.ofJson
            (w.respond (apiReq HMethod.post c w (strLit "api/create_db")
              [(strLit "path", p)] none)).body := by
  constructor <;>
    simp [AuthenticatedHippo.create_database, Client.request, apiReq, ho,
      Except.bind]

theorem C8_create_database_witness :
    (w1ex.sessions cEx.sid).closed = false ∧
      (AuthenticatedHippo.create_database cEx (strLit "a/b") w1ex).2.trace
        = w1ex.trace ++
          [apiReq HMethod.post cEx w1ex (strLit "api/create_db")
            [(strLit "path", strLit "a/b")] none] :=
  ⟨by decide,
    (C8_create_database cEx w1ex (strLit "a/b") (by decide)).1⟩

/-- C5. `authenticate(application, token)` returns a new Authenticated
Client bound to the same base URL owning a freshly opened connection context
that carries Basic credentials (username = application id, password = token);
it leaves the Session Client's own connection context untouched (so it stays
open), issues no network request, and cannot fail on its own. -/
theorem C5_authenticate_frame (c : Client) (ap tk : PyStr) (w : World)
    (hc : c.sid < w.nextSid) :
    (Hippo.authenticate c ap tk w).1
        = Except.ok { url := c.url, sid := w.nextSid } ∧
      (Hippo.authenticate c ap tk w).2.sessions w.nextSid
        = { auth := some (ap, tk), closed := false } ∧
      (Hippo.authenticate c ap tk w).2.sessions c.sid = w.sessions c.sid ∧
      (Hippo.authenticate c ap tk w).2.trace = w.trace := by
  refine ⟨by simp [Hippo.authenticate, AuthenticatedHippo.create],
    by simp [Hippo.authenticate, AuthenticatedHippo.create], ?_,
    by simp [Hippo.authenticate, AuthenticatedHippo.create]⟩
  simp only [Hippo.authenticate, AuthenticatedHippo.create]
  rw [if_neg (by omega)]

theorem C5_authenticate_frame_witness :
    cEx.sid < w1ex.nextSid ∧
      (Hippo.authenticate cEx (strLit "app") (strLit "tok") w1ex).1
        = Except.ok { url := cEx.url, sid := w1ex.nextSid } :=
  ⟨by decide,
    (C5_authenticate_frame cEx (strLit "app") (strLit "tok") w1ex
      (by decide)).1⟩

/-- C3 counterexample. `authenticate` is a client operation other than
`close()`, yet invoked after `close()` has completed (world `wClosedEx`, whose
session for `cEx` is closed) it does not fail with `ClosedClientError`: it
never touches the closed connection context and succeeds. -/
theorem C3_counterexample_authenticate :
    (wClosedEx.sessions cEx.sid).closed = true ∧
      (Hippo.authenticate cEx (strLit "app") (strLit "tok") wClosedEx).1
        ≠ Except.error PyErr.closedClient := by
  refine ⟨by decide, ?_⟩
  intro h
  simp [Hippo.authenticate, AuthenticatedHippo.create] at h

/-- C3 (amended). Every client operation that uses the client's own
connection context — all operations except `close()` and `authenticate()` —
invoked after `close()` has completed fails with `ClosedClientError` and
performs no network call (the world, hence the wire trace, is unchanged);
`authenticate`, by contrast, does not use the closed context: it succeeds,
returning a fresh Authenticated Client, still without any network call. -/
theorem C3_closed_client (c : Client) (w : World)
    (h : (w.sessions c.sid).closed = true) (nm ap tk p n : PyStr)
    (wr rv : Bool) (j : Json) :
    Hippo.server_info c w = (Except.error PyErr.closedClient, w) ∧
    Hippo.list_apps c w = (Except.error PyErr.closedClient, w) ∧
    Hippo.new_app c nm w = (Except.error PyErr.closedClient, w) ∧
    Hippo.new_token c ap wr w = (Except.error PyErr.closedClient, w) ∧
    AuthenticatedHippo.delete_app c ap w
      = (Except.error PyErr.closedClient, w) ∧
    AuthenticatedHippo.delete_token c tk w
      = (Except.error PyErr.closedClient, w) ∧
    AuthenticatedHippo.create_database c p w
      = (Except.error PyErr.closedClient, w) ∧
    AuthenticatedHippo.list_dbs c p rv w
      = (Except.error PyErr.closedClient, w) ∧
    AuthenticatedHippo.list_documents c p w
      = (Except.error PyErr.closedClient, w) ∧
    AuthenticatedHippo.delete_database c p w
      = (Except.error PyErr.closedClient, w) ∧
    AuthenticatedHippo.create_document c p n j w
      = (Except.error PyErr.closedClient, w) ∧
    AuthenticatedHippo.read_document c p n w
      = (Except.error PyErr.closedClient, w) ∧
    AuthenticatedHippo.document_exists c p n w
      = (Except.error PyErr.closedClient, w) ∧
    AuthenticatedHippo.update_document c p n j w
      = (Except.error PyErr.closedClient, w) ∧
    AuthenticatedHippo.delete_document c p n w
      = (Except.error PyErr.closedClient, w) ∧
    (Hippo.authenticate c ap tk w).1
      = Except.ok { url := c.url, sid := w.nextSid } ∧
    (Hippo.authenticate c ap tk w).2.trace = w.trace := by
  refine ⟨?_, ?_, ?_, ?_, ?_, ?_, ?_, ?_, ?_, ?_, ?_, ?_, ?_, ?_, ?_, ?_,
    ?_⟩ <;>
    simp [Hippo.server_info, Hippo.list_apps, Hippo.new_app, Hippo.new_token,
      Hippo.authenticate, AuthenticatedHippo.create,
      AuthenticatedHippo.delete_app, AuthenticatedHippo.delete_token,
      AuthenticatedHippo.create_database, AuthenticatedHippo.list_dbs,
      AuthenticatedHippo.list_documents, AuthenticatedHippo.delete_database,
      AuthenticatedHippo.create_document, AuthenticatedHippo.read_document,
      AuthenticatedHippo.document_exists, AuthenticatedHippo.update_document,
      AuthenticatedHippo.delete_document, Client.request, h, Except.map,
      Except.bind]

theorem C3_closed_client_witness :
    (wClosedEx.sessions cEx.sid).closed = true ∧
      Hippo.server_info cEx wClosedEx
        = (Except.error PyErr.closedClient, wClosedEx) :=
  ⟨by decide,
    (C3_closed_client cEx wClosedEx (by decide) [] [] [] [] [] false false
      Json.null).1⟩

/-- C4 counterexample. In world `w404` the service answers every request
with status 404 (a non-2xx status) and body `notFoundJson`; yet
`read_document` does not fail with `ServiceError{404, body}` — it returns the
parsed body as an ordinary success. -/
theorem C4_counterexample_read_document :
    (w404.respond (apiReq HMethod.get c404 w404
        (docRequestPath (strLit "db") (strLit "doc")) [] none)).status
        = 404 ∧
      (AuthenticatedHippo.read_document c404 (strLit "db") (strLit "doc")
          w404).1 = Except.ok notFoundJson ∧
      (AuthenticatedHippo.read_document c404 (strLit "db") (strLit "doc")
          w404).1 ≠ Except.error (PyErr.serviceError 404 notFoundJson) := by
  have h1 : (AuthenticatedHippo.read_document c404 (strLit "db")
      (strLit "doc") w404).1 = Except.ok notFoundJson := by
    simp [AuthenticatedHippo.read_document, Client.request, w404, c404,
      oracle404, Except.map]
  exact ⟨rfl, h1, by rw [h1]; simp⟩

/-- C4 (amended). The client performs no HTTP status check at all: on an
open connection context each operation decodes the response body exactly as
for a success, whatever the status — a non-2xx response is not surfaced as
`ServiceError` (no local recovery or suppression either: the decoded body or
its validation error is handed to the caller unchanged). -/
theorem C4_no_status_check (c : Client) (w : World)
    (ho : (w.sessions c.sid).closed = false) (nm ap tk p n : PyStr)
    (wr rv : Bool) (j : Json) :
    (Hippo.server_info c w).1
      = Except.ok (w.respond (apiReq HMethod.get c w (strLit "api/")
          [] none)).body ∧
    (Hippo.list_apps c w).1
      = parseList ApplicationInfo.ofJson
          (w.respond (apiReq HMethod.get c w (strLit "api/apps")
            [] none)).body ∧
    (Hippo.new_app c nm w).1
      = ApplicationInfo.ofJson
          (w.respond (apiReq HMethod.post c w (strLit "api/apps/new")
            [(strLit "name", nm)] none)).body ∧
    (Hippo.new_token c ap wr w).1
      = Except.ok (w.respond (apiReq HMethod.post c w
          (strLit "api/tokens/new")
          [(strLit "app_id", ap), (strLit "writeable", pyBoolStr wr)]
          none)).body ∧
    (AuthenticatedHippo.delete_app c ap w).1 = Except.ok () ∧
    (AuthenticatedHippo.delete_token c tk w).1 = Except.ok () ∧
    (AuthenticatedHippo.create_database c p w).1
      = DatabaseInfo.ofJson
          (w.respond (apiReq HMethod.post c w (strLit "api/create_db")
            [(strLit "path", p)] none)).body ∧
    (AuthenticatedHippo.list_dbs c p rv w).1
      = parseList DatabaseInfo.ofJson
          (w.respond (apiReq HMethod.get c w
            (strLit "api/dbs/" ++ encode_path_segment p)
            [(strLit "recursive", pyBoolStr rv)] none)).body ∧
    (AuthenticatedHippo.list_documents c p w).1
      = Except.ok (w.respond (apiReq HMethod.get c w
          (strLit "api/" ++ encode_path_segment p) [] none)).body ∧
    (AuthenticatedHippo.delete_database c p w).1 = Except.ok () ∧
    (AuthenticatedHippo.create_document c p n j w).1
      = Except.ok (w.respond (apiReq HMethod.post c w
          (strLit "api/" ++ encode_path_segment p)
          [(strLit "document_name", n)] (some j))).body ∧
    (AuthenticatedHippo.read_document c p n w).1
      = Except.ok (w.respond (apiReq HMethod.get c w
          (docRequestPath p n) [] none)).body ∧
    (AuthenticatedHippo.document_exists c p n w).1
      = Except.ok (w.respond (apiReq HMethod.get c w
          (docRequestPath p n ++ strLit "/exists") [] none)).body ∧
    (AuthenticatedHippo.update_document c p n j w).1 = Except.ok () ∧
    (AuthenticatedHippo.delete_document c p n w).1 = Except.ok () := by
  refine ⟨?_, ?_, ?_, ?_, ?_, ?_, ?_, ?_, ?_, ?_, ?_, ?_, ?_, ?_, ?_⟩ <;>
    simp [Hippo.server_info, Hippo.list_apps, Hippo.new_app, Hippo.new_token,
      AuthenticatedHippo.delete_app, AuthenticatedHippo.delete_token,
      AuthenticatedHippo.create_database, AuthenticatedHippo.list_dbs,
      AuthenticatedHippo.list_documents, AuthenticatedHippo.delete_database,
      AuthenticatedHippo.create_document, AuthenticatedHippo.read_document,
      AuthenticatedHippo.document_exists, AuthenticatedHippo.update_document,
      AuthenticatedHippo.delete_document, Client.request, apiReq, ho,
      Except.map, Except.bind]

theorem C4_no_status_check_witness :
    (w404.sessions c404.sid).closed = false ∧
      (Hippo.server_info c404 w404).1
        = Except.ok (w404.respond (apiReq HMethod.get c404 w404
            (strLit "api/") [] none)).body :=
  ⟨by decide,
    (C4_no_status_check c404 w404 (by decide) [] [] [] [] [] false false
      Json.null).1⟩

/-- C6. Credential attachment and isolation. From a Session Client `c`
(no credentials on its context, still open), authenticating twice with
different credentials yields two Authenticated Clients on fresh, distinct
connection contexts; afterwards every request issued by the Session Client
carries no Basic credentials, every request issued by the first
Authenticated Client carries exactly `(a1, t1)`, and every request issued by
the second carries exactly `(a2, t2)` — no cross-contamination. -/
theorem C6_credential_isolation (c : Client) (w : World)
    (a1 t1 a2 t2 : PyStr) (hc : c.sid < w.nextSid)
    (ha : (w.sessions c.sid).auth = none)
    (ho : (w.sessions c.sid).closed = false)
    (m : HMethod) (p : PyStr) (ps : List (PyStr × PyStr)) (j : Option Json) :
    (Hippo.authenticate c a1 t1 w).1
        = Except.ok { url := c.url, sid := w.nextSid } ∧
      (Hippo.authenticate c a2 t2 (Hippo.authenticate c a1 t1 w).2).1
        = Except.ok { url := c.url, sid := w.nextSid + 1 } ∧
      w.nextSid ≠ w.nextSid + 1 ∧ c.sid ≠ w.nextSid ∧
      c.sid ≠ w.nextSid + 1 ∧
      (Client.request c m p ps j
          (Hippo.authenticate c a2 t2 (Hippo.authenticate c a1 t1 w).2).2
        ).2.trace
        = (Hippo.authenticate c a2 t2
            (Hippo.authenticate c a1 t1 w).2).2.trace ++
          [{ method := m, base := c.url, path := p, params := ps,
             jsonBody := j, auth := none }] ∧
      (Client.request { url := c.url, sid := w.nextSid } m p ps j
          (Hippo.authenticate c a2 t2 (Hippo.authenticate c a1 t1 w).2).2
        ).2.trace
        = (Hippo.authenticate c a2 t2
            (Hippo.authenticate c a1 t1 w).2).2.trace ++
          [{ method := m, base := c.url, path := p, params := ps,
             jsonBody := j, auth := some (a1, t1) }] ∧
      (Client.request { url := c.url, sid := w.nextSid + 1 } m p ps j
          (Hippo.authenticate c a2 t2 (Hippo.authenticate c a1 t1 w).2).2
        ).2.trace
        = (Hippo.authenticate c a2 t2
            (Hippo.authenticate c a1 t1 w).2).2.trace ++
          [{ method := m, base := c.url, path := p, params := ps,
             jsonBody := j, auth := some (a2, t2) }] := by
  have hs : (Hippo.authenticate c a2 t2
      (Hippo.authenticate c a1 t1 w).2).2.sessions = fun i =>
        if i = w.nextSid + 1 then { auth := some (a2, t2), closed := false }
        else if i = w.nextSid then { auth := some (a1, t1), closed := false }
        else w.sessions i := by
    simp [Hippo.authenticate, AuthenticatedHippo.create]
  refine ⟨by simp [Hippo.authenticate, AuthenticatedHippo.create],
    by simp [Hippo.authenticate, AuthenticatedHippo.create],
    by omega, by omega, by omega, ?_, ?_, ?_⟩
  · have hsc : (Hippo.authenticate c a2 t2
        (Hippo.authenticate c a1 t1 w).2).2.sessions c.sid
          = w.sessions c.sid := by
      simp only [hs]
      rw [if_neg (by omega), if_neg (by omega)]
    simp [Client.request, hsc, ho, ha]
  · have hs1 : (Hippo.authenticate c a2 t2
        (Hippo.authenticate c a1 t1 w).2).2.sessions w.nextSid
          = { auth := some (a1, t1), closed := false } := by
      simp only [hs]
      rw [if_neg (by omega)]
      simp
    simp [Client.request, hs1]
  · have hs2 : (Hippo.authenticate c a2 t2
        (Hippo.authenticate c a1 t1 w).2).2.sessions (w.nextSid + 1)
          = { auth := some (a2, t2), closed := false } := by
      simp only [hs]
      simp
    simp [Client.request, hs2]

theorem C6_credential_isolation_witness :
    cEx.sid < w1ex.nextSid ∧ (w1ex.sessions cEx.sid).auth = none ∧
      (w1ex.sessions cEx.sid).closed = false ∧
      (Hippo.authenticate cEx (strLit "a1") (strLit "t1") w1ex).1
        = Except.ok { url := cEx.url, sid := w1ex.nextSid } :=
  ⟨by decide, by decide, by decide,
    (C6_credential_isolation cEx w1ex (strLit "a1") (strLit "t1")
      (strLit "a2") (strLit "t2") (by decide) (by decide) (by decide)
      HMethod.get (strLit "api/") [] none).1⟩
